import Mathlib

/-!
Shallow embedding of the gogreen-backend approval/audit workflow.

The persistence layer (PostgreSQL via drizzle-orm) is modelled as an
explicit state value of type DB holding the rows of the relevant tables
(users, pending_changes, audit_logs), a fresh-id counter standing for
uuid defaultRandom, and a clock value standing for the current wall time
(new Date() / defaultNow).  Route handlers from the express routers are
modelled as functions from the authenticated caller, the parsed request
body and the DB state to an HTTP-level result paired with the new state.
A Boolean auditOk parameter models whether the audit-log INSERT issued
by a handler succeeds or throws (a storage failure).
-/

namespace GoGreen

/-- Enum user_role from src/db/schema.ts and UserRole from types/auth. -/
inductive UserRole where
  | admin
  | editor
deriving DecidableEq, Repr

/-- Enum change_status from src/db/schema.ts and ChangeStatus from types/auth. -/
inductive ChangeStatus where
  | pending
  | approved
  | rejected
deriving DecidableEq, Repr

/-- Enum action_type from src/db/schema.ts and ActionType from types/auth. -/
inductive ActionType where
  | create
  | update
  | delete
  | login
  | logout
  | approve
  | reject
deriving DecidableEq, Repr

/-- The action field of createChangeSchema: z.enum of create, update, delete. -/
inductive CrudAction where
  | create
  | update
  | delete
deriving DecidableEq, Repr

/-- Cast of a parsed CrudAction to the ActionType column value,
mirroring the TypeScript cast data.action as ActionType. -/
def CrudAction.toActionType : CrudAction → ActionType
  | .create => .create
  | .update => .update
  | .delete => .delete

/-- The status field of reviewSchema: z.enum of approved, rejected. -/
inductive Decision where
  | approved
  | rejected
deriving DecidableEq, Repr

/-- Cast of a parsed Decision to the ChangeStatus column value,
mirroring the TypeScript cast data.status as ChangeStatus. -/
def Decision.toStatus : Decision → ChangeStatus
  | .approved => .approved
  | .rejected => .rejected

/-- The audit action recorded on review: APPROVE when the decision is
approved, REJECT otherwise (the ternary in the review handler). -/
def Decision.toAuditAction : Decision → ActionType
  | .approved => .approve
  | .rejected => .reject

/-- A row of the users table (src/db/schema.ts, pgTable users). -/
structure User where
  id : Nat
  email : String
  password : String
  role : UserRole
  isActive : Bool
  createdAt : Nat
  updatedAt : Nat
deriving DecidableEq, Repr

/-- A row of the pending_changes table (src/db/schema.ts,
pgTable pending_changes).  changeData and previousData are opaque JSON
payloads, modelled as strings; the workflow never inspects them. -/
structure PendingChange where
  id : Nat
  userId : Nat
  action : ActionType
  resourceType : String
  resourceId : Option String
  changeData : String
  previousData : Option String
  status : ChangeStatus
  reviewedBy : Option Nat
  reviewedAt : Option Nat
  reviewNotes : Option String
  createdAt : Nat
  updatedAt : Nat
deriving DecidableEq, Repr

/-- The shapes of the details JSON payloads the handlers under scrutiny
attach to audit rows, one constructor per literal object in the code. -/
inductive AuditDetails where
  | submitChange (changeType : CrudAction) (targetResource : String)
  | reviewChange (originalAction : ActionType) (targetResource : String)
      (reviewNotes : Option String)
  | userCreated (email : String) (role : UserRole)
  | roleUpdated (oldRole : UserRole) (newRole : String)
  | activeToggled (activated : Bool)
  | userDeleted (email : String) (role : UserRole)
  | requestInfo (method : String) (path : String)
deriving DecidableEq, Repr

/-- A row of the audit_logs table (src/db/schema.ts, pgTable audit_logs). -/
structure AuditLog where
  id : Nat
  userId : Nat
  action : ActionType
  resourceType : Option String
  resourceId : Option Nat
  details : AuditDetails
  ipAddress : Option String
  userAgent : Option String
  createdAt : Nat
deriving DecidableEq, Repr

/-- The persistence state: the three relevant tables, a counter standing
for uuid defaultRandom, and the current wall-clock value. -/
structure DB where
  users : List User
  pendingChanges : List PendingChange
  auditLogs : List AuditLog
  nextId : Nat
  now : Nat
deriving DecidableEq, Repr

/-- The JWT payload attached to an authenticated request
(req.user, interface JWTPayload in types/auth). -/
structure JWTPayload where
  userId : Nat
  email : String
  role : UserRole
deriving DecidableEq, Repr

/-! Storage-layer model operations, one per static method used by the
route handlers.  Each is a direct transcription of the drizzle query in
the corresponding model class. -/

/-- Argument record of PendingChangeModel.create
(interface CreatePendingChangeData). -/
structure CreatePendingChangeData where
  userId : Nat
  action : ActionType
  resourceType : String
  resourceId : Option String
  changeData : String
  previousData : Option String
deriving DecidableEq, Repr

/-- Argument record of PendingChangeModel.review
(interface ReviewPendingChangeData). -/
structure ReviewPendingChangeData where
  reviewedBy : Nat
  status : ChangeStatus
  reviewNotes : Option String
deriving DecidableEq, Repr

/-- PendingChangeModel.create: INSERT INTO pending_changes with
status pending; the reviewedBy, reviewedAt and reviewNotes columns are
not set, so they take their schema value null. -/
def PendingChangeModel.create (d : CreatePendingChangeData) (db : DB) :
    PendingChange × DB :=
  let row : PendingChange :=
    { id := db.nextId
      userId := d.userId
      action := d.action
      resourceType := d.resourceType
      resourceId := d.resourceId
      changeData := d.changeData
      previousData := d.previousData
      status := ChangeStatus.pending
      reviewedBy := none
      reviewedAt := none
      reviewNotes := none
      createdAt := db.now
      updatedAt := db.now }
  (row, { db with pendingChanges := db.pendingChanges ++ [row],
                  nextId := db.nextId + 1 })

/-- PendingChangeModel.getById: SELECT ... WHERE id = :id LIMIT 1,
then result[0] or null. -/
def PendingChangeModel.getById (id : Nat) (db : DB) : Option PendingChange :=
  db.pendingChanges.find? (fun c => c.id == id)

/-- The SET clause of PendingChangeModel.review applied to one row. -/
def applyReviewSet (rd : ReviewPendingChangeData) (now : Nat)
    (c : PendingChange) : PendingChange :=
  { c with status := rd.status
           reviewedBy := some rd.reviewedBy
           reviewedAt := some now
           reviewNotes := rd.reviewNotes
           updatedAt := now }

/-- PendingChangeModel.review: UPDATE pending_changes SET status,
reviewedBy, reviewedAt, reviewNotes, updatedAt WHERE id = :id
RETURNING *, then result[0] or null.  Note that the WHERE predicate
matches on the id alone: it places no condition on the current status. -/
def PendingChangeModel.review (id : Nat) (rd : ReviewPendingChangeData)
    (db : DB) : Option PendingChange × DB :=
  let updatedRows :=
    db.pendingChanges.map (fun c => if c.id = id then applyReviewSet rd db.now c else c)
  let returned :=
    (db.pendingChanges.find? (fun c => c.id == id)).map (applyReviewSet rd db.now)
  (returned, { db with pendingChanges := updatedRows })

/-- The atomic conditional transition the specification asks for,
written from the spec's words (a single conditional update whose
predicate itself requires status pending, returning the post-update row
or no match); declared only to compare the code's review update against
it. -/
def reviewConditionalUpdateSpec (id : Nat) (rd : ReviewPendingChangeData)
    (db : DB) : Option PendingChange × DB :=
  let hit (c : PendingChange) : Bool :=
    c.id == id && c.status == ChangeStatus.pending
  let updatedRows :=
    db.pendingChanges.map (fun c => if hit c then applyReviewSet rd db.now c else c)
  let returned := (db.pendingChanges.find? hit).map (applyReviewSet rd db.now)
  (returned, { db with pendingChanges := updatedRows })

/-- Argument record of AuditLogModel.create (interface CreateAuditLogData). -/
structure CreateAuditLogData where
  userId : Nat
  action : ActionType
  resourceType : Option String
  resourceId : Option Nat
  details : AuditDetails
  ipAddress : Option String
  userAgent : Option String
deriving DecidableEq, Repr

/-- AuditLogModel.create: INSERT INTO audit_logs RETURNING *. -/
def AuditLogModel.create (d : CreateAuditLogData) (db : DB) : AuditLog × DB :=
  let row : AuditLog :=
    { id := db.nextId
      userId := d.userId
      action := d.action
      resourceType := d.resourceType
      resourceId := d.resourceId
      details := d.details
      ipAddress := d.ipAddress
      userAgent := d.userAgent
      createdAt := db.now }
  (row, { db with auditLogs := db.auditLogs ++ [row], nextId := db.nextId + 1 })

/-- The ordering used by ORDER BY created_at DESC: a row comes no later
than another when its creation time is at least as large. -/
def byNewest (a b : AuditLog) : Prop := b.createdAt ≤ a.createdAt

instance : DecidableRel byNewest := fun a b => Nat.decLe b.createdAt a.createdAt

instance : IsTotal AuditLog byNewest := ⟨fun a b => Nat.le_total b.createdAt a.createdAt⟩

instance : IsTrans AuditLog byNewest := ⟨fun _ _ _ h1 h2 => Nat.le_trans h2 h1⟩

/-- ORDER BY created_at DESC over a list of audit rows, modelled as a
sort by the byNewest ordering. -/
def orderByCreatedAtDesc (l : List AuditLog) : List AuditLog :=
  List.insertionSort byNewest l

/-- AuditLogModel.getByUserId: SELECT ... WHERE user_id = :userId
ORDER BY created_at DESC LIMIT :limit. -/
def AuditLogModel.getByUserId (userId : Nat) (limit : Nat) (db : DB) :
    List AuditLog :=
  (orderByCreatedAtDesc (db.auditLogs.filter (fun a => a.userId == userId))).take limit

/-- AuditLogModel.getByUserId when invoked without an explicit limit:
the TypeScript signature declares the limit parameter with default
value 50, so the call reduces to getByUserId with limit 50. -/
def AuditLogModel.getByUserIdDefault (userId : Nat) (db : DB) : List AuditLog :=
  AuditLogModel.getByUserId userId 50 db

/-! Route-handler layer.  Each handler is modelled from the express
router code, after authentication middleware has resolved req.user and
after (for typed bodies) the zod schema has parsed the request body.
The HttpResult value mirrors the JSON response: ok for the success
response, err for a res.status(code).json error response. -/

/-- The outcome of a request: the success payload, or an error status
code together with the error message sent to the client. -/
inductive HttpResult (α : Type) where
  | ok (value : α)
  | err (status : Nat) (message : String)
deriving DecidableEq, Repr

/-- Parsed body of POST /api/pending-changes (createChangeSchema). -/
structure CreateChangeBody where
  action : CrudAction
  resourceType : String
  resourceId : Option String
  changeData : String
  previousData : Option String
deriving DecidableEq, Repr

/-- POST /api/pending-changes: the submit handler.  Admin callers are
turned away before anything is stored; otherwise the pending change is
inserted, then an audit row is written.  The audit INSERT is awaited
inside the same try block, so when it throws (auditOk false) the catch
responds 500 while the already-committed pending-change INSERT stays. -/
def submitHandler (user : JWTPayload) (body : CreateChangeBody)
    (auditOk : Bool) (db : DB) : HttpResult PendingChange × DB :=
  if user.role = UserRole.admin then
    (HttpResult.err 400 ("Super admins do not need approval for changes"), db)
  else
    let created := PendingChangeModel.create
      { userId := user.userId
        action := body.action.toActionType
        resourceType := body.resourceType
        resourceId := body.resourceId
        changeData := body.changeData
        previousData := body.previousData } db
    let pc := created.1
    let db1 := created.2
    if auditOk then
      let logged := AuditLogModel.create
        { userId := user.userId
          action := ActionType.create
          resourceType := some ("pending_change")
          resourceId := some pc.id
          details := AuditDetails.submitChange body.action body.resourceType
          ipAddress := none
          userAgent := none } db1
      (HttpResult.ok pc, logged.2)
    else
      (HttpResult.err 500 ("Internal server error"), db1)

/-- Parsed body of POST /api/pending-changes/:id/review (reviewSchema). -/
structure ReviewBody where
  status : Decision
  reviewNotes : Option String
deriving DecidableEq, Repr

/-- POST /api/pending-changes/:id/review: the review handler.  It reads
the record, rejects a missing id with 404 and a non-pending status with
400, then performs the storage update and writes the audit row.  The
success payload is the row returned by the UPDATE (nullable in the
code, hence the Option).  As in the submit handler, a throwing audit
INSERT (auditOk false) is caught and answered with 500 after the
pending-change UPDATE has already been committed. -/
def reviewHandler (user : JWTPayload) (id : Nat) (body : ReviewBody)
    (auditOk : Bool) (db : DB) : HttpResult (Option PendingChange) × DB :=
  match PendingChangeModel.getById id db with
  | none => (HttpResult.err 404 ("Pending change not found"), db)
  | some pendingChange =>
    if pendingChange.status ≠ ChangeStatus.pending then
      (HttpResult.err 400 ("This change has already been reviewed"), db)
    else
      let reviewedPair := PendingChangeModel.review id
        { reviewedBy := user.userId
          status := body.status.toStatus
          reviewNotes := body.reviewNotes } db
      let db1 := reviewedPair.2
      if auditOk then
        let logged := AuditLogModel.create
          { userId := user.userId
            action := body.status.toAuditAction
            resourceType := some ("pending_change")
            resourceId := some id
            details := AuditDetails.reviewChange pendingChange.action
              pendingChange.resourceType body.reviewNotes
            ipAddress := none
            userAgent := none } db1
        (HttpResult.ok reviewedPair.1, logged.2)
      else
        (HttpResult.err 500 ("Internal server error"), db1)

/-- The auditLog middleware (audit.middleware): it overrides res.json
so that, when the final status code is below 400 and req.user is set,
an audit row is inserted fire-and-forget; a rejected insert is caught
and only logged to the console.  The function returns the response data
passed through together with the resulting store state. -/
def auditMiddlewareJson {α : Type} (user : Option JWTPayload)
    (action : ActionType) (resourceType : Option String)
    (statusCode : Nat) (resourceId : Option Nat)
    (method pathStr : String) (ipAddress userAgent : Option String)
    (auditOk : Bool) (data : α) (db : DB) : α × DB :=
  match user with
  | none => (data, db)
  | some u =>
    if statusCode < 400 then
      if auditOk then
        (data, (AuditLogModel.create
          { userId := u.userId
            action := action
            resourceType := resourceType
            resourceId := resourceId
            details := AuditDetails.requestInfo method pathStr
            ipAddress := ipAddress
            userAgent := userAgent } db).2)
      else
        (data, db)
    else
      (data, db)

/-! User-management layer: UserModel and the users router (users.routes). -/

/-- UserModel.findByEmail: SELECT ... WHERE email = :email LIMIT 1. -/
def UserModel.findByEmail (email : String) (db : DB) : Option User :=
  db.users.find? (fun u => u.email == email)

/-- UserModel.findById: SELECT ... WHERE id = :id LIMIT 1. -/
def UserModel.findById (id : Nat) (db : DB) : Option User :=
  db.users.find? (fun u => u.id == id)

/-- UserModel.create: INSERT INTO users with isActive true RETURNING *. -/
def UserModel.create (email password : String) (role : UserRole) (db : DB) :
    User × DB :=
  let row : User :=
    { id := db.nextId
      email := email
      password := password
      role := role
      isActive := true
      createdAt := db.now
      updatedAt := db.now }
  (row, { db with users := db.users ++ [row], nextId := db.nextId + 1 })

/-- UserModel.updateRole: UPDATE users SET role, updatedAt
WHERE id = :id RETURNING *, reported as result.length > 0. -/
def UserModel.updateRole (id : Nat) (role : UserRole) (db : DB) : Bool × DB :=
  let updated := db.users.map (fun u =>
    if u.id = id then { u with role := role, updatedAt := db.now } else u)
  (db.users.any (fun u => u.id == id), { db with users := updated })

/-- UserModel.toggleActive: UPDATE users SET isActive, updatedAt
WHERE id = :id RETURNING *, reported as result.length > 0. -/
def UserModel.toggleActive (id : Nat) (isActive : Bool) (db : DB) : Bool × DB :=
  let updated := db.users.map (fun u =>
    if u.id = id then { u with isActive := isActive, updatedAt := db.now } else u)
  (db.users.any (fun u => u.id == id), { db with users := updated })

/-- UserModel.deleteById: DELETE FROM users WHERE id = :id RETURNING *. -/
def UserModel.deleteById (id : Nat) (db : DB) : Bool × DB :=
  (db.users.any (fun u => u.id == id),
   { db with users := db.users.filter (fun u => u.id != id) })

/-- Raw body of POST /api/users before zod validation; the role arrives
as a free-form string from the client. -/
structure RawCreateUserBody where
  email : String
  password : String
  role : String
deriving DecidableEq, Repr

/-- Result of createUserSchema.parse: z.string().email() modelled as
containing an at sign, z.string().min(6) on the password, and
z.enum allowing only the literal editor for the role. -/
def parseCreateUser (b : RawCreateUserBody) : Option (String × String × UserRole) :=
  if b.email.contains '@' ∧ 6 ≤ b.password.length ∧ b.role = "editor" then
    some (b.email, b.password, UserRole.editor)
  else
    none

/-- Raw body of PATCH /api/users/:id/role before zod validation. -/
structure RawRoleBody where
  role : String
deriving DecidableEq, Repr

/-- Result of updateRoleSchema.parse: z.enum allowing only editor. -/
def parseUpdateRole (b : RawRoleBody) : Option UserRole :=
  if b.role = "editor" then some UserRole.editor else none

/-- POST /api/users: create a user.  Validation first, then email
uniqueness, then the INSERT with the argon2 hash of the password (the
hash function is an external collaborator, passed as a parameter),
then the awaited audit row. -/
def createUserHandler (user : JWTPayload) (body : RawCreateUserBody)
    (hash : String → String) (auditOk : Bool) (db : DB) :
    HttpResult User × DB :=
  match parseCreateUser body with
  | none => (HttpResult.err 400 ("Invalid input"), db)
  | some parsed =>
    match UserModel.findByEmail parsed.1 db with
    | some _ => (HttpResult.err 400 ("User with this email already exists"), db)
    | none =>
      let created := UserModel.create parsed.1 (hash parsed.2.1) parsed.2.2 db
      let newUser := created.1
      let db1 := created.2
      if auditOk then
        let logged := AuditLogModel.create
          { userId := user.userId
            action := ActionType.create
            resourceType := some ("user")
            resourceId := some newUser.id
            details := AuditDetails.userCreated newUser.email newUser.role
            ipAddress := none
            userAgent := none } db1
        (HttpResult.ok newUser, logged.2)
      else
        (HttpResult.err 500 ("Internal server error"), db1)

/-- PATCH /api/users/:id/role: update a user's role.  Validation, then
existence, then the guard refusing to change an admin's role, then the
UPDATE and the awaited audit row. -/
def updateRoleHandler (user : JWTPayload) (id : Nat) (body : RawRoleBody)
    (auditOk : Bool) (db : DB) : HttpResult Unit × DB :=
  match parseUpdateRole body with
  | none => (HttpResult.err 400 ("Invalid input"), db)
  | some newRole =>
    match UserModel.findById id db with
    | none => (HttpResult.err 404 ("User not found"), db)
    | some target =>
      if target.role = UserRole.admin then
        (HttpResult.err 403 ("Cannot change admin role"), db)
      else
        let db1 := (UserModel.updateRole id newRole db).2
        if auditOk then
          let logged := AuditLogModel.create
            { userId := user.userId
              action := ActionType.update
              resourceType := some ("user")
              resourceId := some id
              details := AuditDetails.roleUpdated target.role body.role
              ipAddress := none
              userAgent := none } db1
          (HttpResult.ok (), logged.2)
        else
          (HttpResult.err 500 ("Internal server error"), db1)

/-- PATCH /api/users/:id/active: activate or deactivate a user.  The
body is typed (toggleActiveSchema holds one boolean).  Existence, the
guard refusing to deactivate an admin, the guard refusing to act on
one's own account, then the UPDATE and the awaited audit row. -/
def toggleActiveHandler (user : JWTPayload) (id : Nat) (isActive : Bool)
    (auditOk : Bool) (db : DB) : HttpResult Unit × DB :=
  match UserModel.findById id db with
  | none => (HttpResult.err 404 ("User not found"), db)
  | some target =>
    if target.role = UserRole.admin then
      (HttpResult.err 403 ("Cannot deactivate admin"), db)
    else if id = user.userId then
      (HttpResult.err 403 ("Cannot deactivate your own account"), db)
    else
      let db1 := (UserModel.toggleActive id isActive db).2
      if auditOk then
        let logged := AuditLogModel.create
          { userId := user.userId
            action := ActionType.update
            resourceType := some ("user")
            resourceId := some id
            details := AuditDetails.activeToggled isActive
            ipAddress := none
            userAgent := none } db1
        (HttpResult.ok (), logged.2)
      else
        (HttpResult.err 500 ("Internal server error"), db1)

/-- DELETE /api/users/:id: delete a user.  Existence, the guard
refusing to delete an admin, the guard refusing to delete one's own
account, then the DELETE and the awaited audit row. -/
def deleteUserHandler (user : JWTPayload) (id : Nat) (auditOk : Bool)
    (db : DB) : HttpResult Unit × DB :=
  match UserModel.findById id db with
  | none => (HttpResult.err 404 ("User not found"), db)
  | some target =>
    if target.role = UserRole.admin then
      (HttpResult.err 403 ("Cannot delete admin"), db)
    else if id = user.userId then
      (HttpResult.err 403 ("Cannot delete your own account"), db)
    else
      let db1 := (UserModel.deleteById id db).2
      if auditOk then
        let logged := AuditLogModel.create
          { userId := user.userId
            action := ActionType.delete
            resourceType := some ("user")
            resourceId := some id
            details := AuditDetails.userDeleted target.email target.role
            ipAddress := none
            userAgent := none } db1
        (HttpResult.ok (), logged.2)
      else
        (HttpResult.err 500 ("Internal server error"), db1)

/-- One call to the user-management API, with the data the handler
needs; used to reason about arbitrary sequences of such calls. -/
inductive UserOp where
  | createUser (actor : JWTPayload) (body : RawCreateUserBody)
      (hash : String → String) (auditOk : Bool)
  | updateRole (actor : JWTPayload) (id : Nat) (body : RawRoleBody)
      (auditOk : Bool)
  | toggleActive (actor : JWTPayload) (id : Nat) (isActive : Bool)
      (auditOk : Bool)
  | deleteUser (actor : JWTPayload) (id : Nat) (auditOk : Bool)

/-- Apply one user-management call to the store, keeping only the
resulting state. -/
def applyUserOp (op : UserOp) (db : DB) : DB :=
  match op with
  | .createUser actor body hash auditOk => (createUserHandler actor body hash auditOk db).2
  | .updateRole actor id body auditOk => (updateRoleHandler actor id body auditOk db).2
  | .toggleActive actor id isActive auditOk => (toggleActiveHandler actor id isActive auditOk db).2
  | .deleteUser actor id auditOk => (deleteUserHandler actor id auditOk db).2

/-- Run a sequence of user-management calls from left to right. -/
def runUserOps : List UserOp → DB → DB
  | [], db => db
  | op :: rest, db => runUserOps rest (applyUserOp op db)

/-! Concrete fixtures used to evaluate the operations on small inputs. -/

/-- An editor principal. -/
def editorU : JWTPayload := ⟨5, "editor@example.com", UserRole.editor⟩

/-- An admin principal. -/
def adminU : JWTPayload := ⟨10, "admin@example.com", UserRole.admin⟩

/-- An empty store. -/
def dbEmpty : DB := ⟨[], [], [], 1, 100⟩

/-- A parsed submit body proposing a product update. -/
def sampleChangeBody : CreateChangeBody :=
  ⟨CrudAction.update, "product", some ("p1"), "price:12.00", none⟩

/-- The pending-change row a submit of sampleChangeBody by editorU
creates in dbEmpty. -/
def submittedRow : PendingChange :=
  ⟨1, 5, ActionType.update, "product", some ("p1"), "price:12.00", none,
   ChangeStatus.pending, none, none, none, 100, 100⟩

/-- The store after that successful submit. -/
def dbAfterSubmit : DB := (submitHandler editorU sampleChangeBody true dbEmpty).2

/-- A stored pending change awaiting review. -/
def pendingRow : PendingChange :=
  ⟨1, 5, ActionType.update, "product", some ("p1"), "price:12.00", none,
   ChangeStatus.pending, none, none, none, 50, 50⟩

/-- A store holding exactly that pending change. -/
def dbOnePending : DB := ⟨[], [pendingRow], [], 2, 100⟩

/-- The same change already approved. -/
def approvedRow : PendingChange :=
  { pendingRow with status := ChangeStatus.approved, reviewedBy := some 10,
                    reviewedAt := some 60, reviewNotes := some ("ok") }

/-- A store holding exactly that approved change. -/
def dbOneApproved : DB := ⟨[], [approvedRow], [], 2, 100⟩

/-- A parsed review body approving with a note. -/
def rbApprove : ReviewBody := ⟨Decision.approved, some ("ok")⟩

/-- The storage-layer review data of an approving reviewer with id 10. -/
def rdApprove : ReviewPendingChangeData := ⟨10, ChangeStatus.approved, some ("ok")⟩

/-- The storage-layer review data of a rejecting reviewer with id 11. -/
def rdReject : ReviewPendingChangeData := ⟨11, ChangeStatus.rejected, some ("no")⟩

/-- A stored admin user row whose id matches adminU. -/
def adminRow : User := ⟨10, "admin@example.com", "stored-hash", UserRole.admin, true, 10, 10⟩

/-- A store holding exactly that admin user. -/
def dbOneAdmin : DB := ⟨[adminRow], [], [], 11, 100⟩

/-- A user-creation body asking for the admin role. -/
def badRoleCreateBody : RawCreateUserBody := ⟨"eve@example.com", "secret123", "admin"⟩

/-! Helper lemmas about the storage operations. -/

/-- The review SET clause does not touch the id column. -/
theorem applyReviewSet_id (rd : ReviewPendingChangeData) (now : Nat)
    (c : PendingChange) : (applyReviewSet rd now c).id = c.id := rfl

/-- Looking an id up after the review UPDATE finds exactly the image of
the row the lookup found before the update. -/
theorem find?_map_applyReviewSet (l : List PendingChange) (id : Nat)
    (rd : ReviewPendingChangeData) (now : Nat) :
    (l.map (fun c => if c.id = id then applyReviewSet rd now c else c)).find?
        (fun c => c.id == id)
      = (l.find? (fun c => c.id == id)).map (applyReviewSet rd now) := by
  induction l with
  | nil => rfl
  | cons a t ih =>
    by_cases h : a.id = id
    · simp [List.find?_cons, h, applyReviewSet]
    · simp [List.find?_cons, h, ih]

/-- Inserting an audit row leaves the pending_changes table alone. -/
theorem auditCreate_pendingChanges (d : CreateAuditLogData) (db : DB) :
    ((AuditLogModel.create d db).2).pendingChanges = db.pendingChanges := rfl

/-- Inserting an audit row leaves the users table alone. -/
theorem auditCreate_users (d : CreateAuditLogData) (db : DB) :
    ((AuditLogModel.create d db).2).users = db.users := rfl

/-- Inserting an audit row appends exactly that row to audit_logs. -/
theorem auditCreate_auditLogs (d : CreateAuditLogData) (db : DB) :
    ((AuditLogModel.create d db).2).auditLogs
      = db.auditLogs ++ [(AuditLogModel.create d db).1] := rfl

/-- The review UPDATE leaves audit_logs alone. -/
theorem reviewModel_auditLogs (id : Nat) (rd : ReviewPendingChangeData) (db : DB) :
    ((PendingChangeModel.review id rd db).2).auditLogs = db.auditLogs := rfl

/-- The pending-change INSERT leaves audit_logs alone. -/
theorem pcCreate_auditLogs (d : CreatePendingChangeData) (db : DB) :
    ((PendingChangeModel.create d db).2).auditLogs = db.auditLogs := rfl

/-! Claim C4. -/

/-- C4: a submit by an identity with role admin fails with the policy
error and the store is unchanged, so no PendingChange is created. -/
theorem admin_submit_rejected (u : JWTPayload) (b : CreateChangeBody)
    (auditOk : Bool) (db : DB) (h : u.role = UserRole.admin) :
    submitHandler u b auditOk db
      = (HttpResult.err 400 ("Super admins do not need approval for changes"), db) := by
  simp [submitHandler, h]

/-- Witness for C4 at a concrete admin, body and store. -/
theorem admin_submit_rejected_witness :
    submitHandler adminU sampleChangeBody true dbEmpty
      = (HttpResult.err 400 ("Super admins do not need approval for changes"), dbEmpty) :=
  admin_submit_rejected adminU sampleChangeBody true dbEmpty rfl

/-! Claim C10. -/

/-- C10: the per-identity audit query, invoked without an explicit
limit, caps its result at 50 entries, ordered newest first, and every
returned entry belongs to the queried identity. -/
theorem getByUserId_default_cap_sorted (userId : Nat) (db : DB) :
    (AuditLogModel.getByUserIdDefault userId db).length ≤ 50
    ∧ (AuditLogModel.getByUserIdDefault userId db).Sorted byNewest
    ∧ ∀ e ∈ AuditLogModel.getByUserIdDefault userId db, e.userId = userId := by
  refine ⟨?_, ?_, ?_⟩
  · simp only [AuditLogModel.getByUserIdDefault, AuditLogModel.getByUserId,
      List.length_take]
    exact Nat.min_le_left _ _
  · exact List.Pairwise.sublist (List.take_sublist _ _)
      (List.sorted_insertionSort byNewest _)
  · intro e he
    simp only [AuditLogModel.getByUserIdDefault, AuditLogModel.getByUserId] at he
    have h1 : e ∈ orderByCreatedAtDesc
        (db.auditLogs.filter (fun a => a.userId == userId)) :=
      (List.take_sublist _ _).subset he
    have h2 : e ∈ db.auditLogs.filter (fun a => a.userId == userId) :=
      (List.perm_insertionSort byNewest _).mem_iff.mp h1
    have h3 := List.mem_filter.mp h2
    exact beq_iff_eq.mp h3.2

/-- Witness for C10 at a concrete identity and store. -/
theorem getByUserId_default_cap_sorted_witness :
    (AuditLogModel.getByUserIdDefault 5 dbAfterSubmit).length ≤ 50 :=
  (getByUserId_default_cap_sorted 5 dbAfterSubmit).1

/-! Claim C2. -/

/-- C2 (refuting the claimed atomicity): the code's review UPDATE
matches on id alone, so in the interleaving where two reviewers both
read the same pending change before either writes, both observe status
pending, both storage updates succeed, and the second decision
overwrites the first terminal state; the conditional update written
from the spec's words would instead have matched no row on the second
write. -/
theorem review_update_not_conditional_on_status :
    ((PendingChangeModel.getById 1 dbOnePending).map PendingChange.status
        = some ChangeStatus.pending)
    ∧ ((PendingChangeModel.review 1 rdApprove dbOnePending).1.isSome = true)
    ∧ ((PendingChangeModel.review 1 rdReject
          (PendingChangeModel.review 1 rdApprove dbOnePending).2).1.isSome = true)
    ∧ ((PendingChangeModel.getById 1
          (PendingChangeModel.review 1 rdReject
            (PendingChangeModel.review 1 rdApprove dbOnePending).2).2).map
          PendingChange.status = some ChangeStatus.rejected)
    ∧ ((reviewConditionalUpdateSpec 1 rdReject
          (PendingChangeModel.review 1 rdApprove dbOnePending).2).1 = none) :=
  ⟨rfl, rfl, rfl, rfl, rfl⟩

/-! Claim C3, counterexample part. -/

/-- C3 is refuted at a concrete input: with the audit INSERT failing,
the submit handler's primary persistence step succeeds (the pending
change is stored) and yet the caller receives a 500 error rather than
the normal success result. -/
theorem audit_failure_not_swallowed_in_submit :
    ((submitHandler editorU sampleChangeBody false dbEmpty).1
        = HttpResult.err 500 ("Internal server error"))
    ∧ ((submitHandler editorU sampleChangeBody false dbEmpty).2).pendingChanges
        = [submittedRow] :=
  ⟨rfl, rfl⟩

/-- A parsed review decision is never the pending status. -/
theorem Decision.toStatus_ne_pending (d : Decision) :
    d.toStatus ≠ ChangeStatus.pending := by
  cases d <;> simp [Decision.toStatus]

/-- Inversion of a successful submit: success implies the caller is not
an admin, the audit insert succeeded, the returned row is the row the
pending-change INSERT produced, and the final state is the state after
that INSERT followed by the audit INSERT. -/
theorem submitHandler_ok_inv (u : JWTPayload) (b : CreateChangeBody)
    (auditOk : Bool) (db : DB) (pc : PendingChange) (db' : DB)
    (h : submitHandler u b auditOk db = (HttpResult.ok pc, db')) :
    u.role ≠ UserRole.admin ∧ auditOk = true
    ∧ pc = (PendingChangeModel.create
        ⟨u.userId, b.action.toActionType, b.resourceType, b.resourceId,
         b.changeData, b.previousData⟩ db).1
    ∧ db' = (AuditLogModel.create
        ⟨u.userId, ActionType.create, some ("pending_change"), some pc.id,
         AuditDetails.submitChange b.action b.resourceType, none, none⟩
        (PendingChangeModel.create
          ⟨u.userId, b.action.toActionType, b.resourceType, b.resourceId,
           b.changeData, b.previousData⟩ db).2).2 := by
  simp only [submitHandler] at h
  split at h
  · exact absurd h (by simp)
  · rename_i hrole
    split at h
    · rename_i haudit
      obtain ⟨h1, h2⟩ := Prod.mk.injEq .. ▸ h
      injection h1 with h1
      exact ⟨hrole, haudit, h1.symm, by rw [← h2, ← h1]⟩
    · exact absurd h (by simp)

/-- Inversion of a successful review: success implies the record
existed with status pending, the audit insert succeeded, the returned
payload is the row produced by the review UPDATE, and the final state
is the state after that UPDATE followed by the audit INSERT. -/
theorem reviewHandler_ok_inv (u : JWTPayload) (id : Nat) (b : ReviewBody)
    (auditOk : Bool) (db : DB) (r : Option PendingChange) (db' : DB)
    (h : reviewHandler u id b auditOk db = (HttpResult.ok r, db')) :
    ∃ pc, PendingChangeModel.getById id db = some pc
      ∧ pc.status = ChangeStatus.pending
      ∧ auditOk = true
      ∧ r = some (applyReviewSet ⟨u.userId, b.status.toStatus, b.reviewNotes⟩ db.now pc)
      ∧ db' = (AuditLogModel.create
          ⟨u.userId, b.status.toAuditAction, some ("pending_change"), some id,
           AuditDetails.reviewChange pc.action pc.resourceType b.reviewNotes,
           none, none⟩
          (PendingChangeModel.review id
            ⟨u.userId, b.status.toStatus, b.reviewNotes⟩ db).2).2 := by
  simp only [reviewHandler] at h
  split at h
  · exact absurd h (by simp)
  · rename_i pc hget
    split at h
    · exact absurd h (by simp)
    · rename_i hstat
      rw [not_not] at hstat
      split at h
      · rename_i haudit
        obtain ⟨h1, h2⟩ := Prod.mk.injEq .. ▸ h
        injection h1 with h1
        refine ⟨pc, hget, hstat, haudit, ?_, ?_⟩
        · rw [← h1]
          show (PendingChangeModel.getById id db).map _ = _
          rw [hget]
          rfl
        · rw [← h2]
      · exact absurd h (by simp)

/-! Claim C1. -/

/-- C1: a review of a PendingChange whose status is not pending fails
with the invalid-state error and leaves the store untouched; and once a
review succeeds, every subsequent review of the same PendingChange
fails with that same error, the store again untouched. -/
theorem review_requires_pending_and_terminal :
    (∀ (u : JWTPayload) (id : Nat) (b : ReviewBody) (auditOk : Bool) (db : DB)
        (c : PendingChange),
      PendingChangeModel.getById id db = some c →
      c.status ≠ ChangeStatus.pending →
      reviewHandler u id b auditOk db
        = (HttpResult.err 400 ("This change has already been reviewed"), db))
    ∧ (∀ (u : JWTPayload) (id : Nat) (b : ReviewBody) (auditOk : Bool) (db : DB)
        (r : Option PendingChange) (db' : DB),
      reviewHandler u id b auditOk db = (HttpResult.ok r, db') →
      ∀ (u2 : JWTPayload) (b2 : ReviewBody) (auditOk2 : Bool),
        reviewHandler u2 id b2 auditOk2 db'
          = (HttpResult.err 400 ("This change has already been reviewed"), db')) := by
  have hfail : ∀ (u : JWTPayload) (id : Nat) (b : ReviewBody) (auditOk : Bool)
      (db : DB) (c : PendingChange),
      PendingChangeModel.getById id db = some c →
      c.status ≠ ChangeStatus.pending →
      reviewHandler u id b auditOk db
        = (HttpResult.err 400 ("This change has already been reviewed"), db) := by
    intro u id b auditOk db c hget hstat
    simp only [reviewHandler]
    rw [hget]
    simp [hstat]
  refine ⟨hfail, ?_⟩
  intro u id b auditOk db r db' h u2 b2 auditOk2
  obtain ⟨pc, hget, _, _, _, hdb'⟩ :=
    reviewHandler_ok_inv u id b auditOk db r db' h
  have hget' : PendingChangeModel.getById id db'
      = some (applyReviewSet ⟨u.userId, b.status.toStatus, b.reviewNotes⟩ db.now pc) := by
    rw [hdb']
    show ((PendingChangeModel.review id _ db).2).pendingChanges.find? _ = _
    show (db.pendingChanges.map _).find? _ = _
    rw [find?_map_applyReviewSet]
    have hget2 : db.pendingChanges.find? (fun c => c.id == id) = some pc := hget
    rw [hget2]
    rfl
  exact hfail u2 id b2 auditOk2 db' _ hget'
    (by simpa [applyReviewSet] using Decision.toStatus_ne_pending b.status)

/-- Witness for C1, first part: reviewing an already-approved change in
a concrete store fails with the invalid-state error and returns the
store unchanged. -/
theorem review_requires_pending_witness :
    reviewHandler adminU 1 rbApprove true dbOneApproved
      = (HttpResult.err 400 ("This change has already been reviewed"), dbOneApproved) :=
  review_requires_pending_and_terminal.1 adminU 1 rbApprove true dbOneApproved
    approvedRow rfl (by decide)

/-! Claim C7. -/

/-- C7: a successful review of a pending change sets the status to the
decision, the reviewer to the reviewing identity, the review timestamp
to the current clock, the notes to the supplied notes, returns the
updated record, and stores exactly that record under the same id. -/
theorem review_success_sets_fields (u : JWTPayload) (id : Nat) (b : ReviewBody)
    (db : DB) (pc : PendingChange)
    (hget : PendingChangeModel.getById id db = some pc)
    (hstat : pc.status = ChangeStatus.pending) :
    ∃ r db', reviewHandler u id b true db = (HttpResult.ok (some r), db')
      ∧ r.status = b.status.toStatus
      ∧ (b.status = Decision.approved → r.status = ChangeStatus.approved)
      ∧ (b.status = Decision.rejected → r.status = ChangeStatus.rejected)
      ∧ r.reviewedBy = some u.userId
      ∧ r.reviewedAt = some db.now
      ∧ r.reviewNotes = b.reviewNotes
      ∧ PendingChangeModel.getById id db' = some r := by
  refine ⟨applyReviewSet ⟨u.userId, b.status.toStatus, b.reviewNotes⟩ db.now pc,
    (AuditLogModel.create
      ⟨u.userId, b.status.toAuditAction, some ("pending_change"), some id,
       AuditDetails.reviewChange pc.action pc.resourceType b.reviewNotes,
       none, none⟩
      (PendingChangeModel.review id
        ⟨u.userId, b.status.toStatus, b.reviewNotes⟩ db).2).2,
    ?_, rfl, ?_, ?_, rfl, rfl, rfl, ?_⟩
  · have hret : (PendingChangeModel.review id
        ⟨u.userId, b.status.toStatus, b.reviewNotes⟩ db).1
        = some (applyReviewSet ⟨u.userId, b.status.toStatus, b.reviewNotes⟩ db.now pc) := by
      show (PendingChangeModel.getById id db).map _ = _
      rw [hget]
      rfl
    simp only [reviewHandler]
    rw [hget]
    simp [hstat, hret]
  · intro hd
    rw [hd]
    rfl
  · intro hd
    rw [hd]
    rfl
  · show ((PendingChangeModel.review id _ db).2).pendingChanges.find? _ = _
    show (db.pendingChanges.map _).find? _ = _
    rw [find?_map_applyReviewSet]
    have hget2 : db.pendingChanges.find? (fun c => c.id == id) = some pc := hget
    rw [hget2]
    rfl

/-- Witness for C7 at a concrete pending change and approving review. -/
theorem review_success_sets_fields_witness :
    ∃ r db', reviewHandler adminU 1 rbApprove true dbOnePending
        = (HttpResult.ok (some r), db')
      ∧ r.status = rbApprove.status.toStatus
      ∧ (rbApprove.status = Decision.approved → r.status = ChangeStatus.approved)
      ∧ (rbApprove.status = Decision.rejected → r.status = ChangeStatus.rejected)
      ∧ r.reviewedBy = some adminU.userId
      ∧ r.reviewedAt = some dbOnePending.now
      ∧ r.reviewNotes = rbApprove.reviewNotes
      ∧ PendingChangeModel.getById 1 db' = some r :=
  review_success_sets_fields adminU 1 rbApprove dbOnePending pendingRow rfl rfl

/-! Claim C5. -/

/-- C5: a successful submit appends exactly one audit entry, with
action create and resource type pending_change, referencing the new
row; a successful review appends exactly one audit entry whose action
is approve for an approving decision and reject for a rejecting one,
with resource type pending_change, and whose details carry the original
action, the target resource type and the review notes. -/
theorem audit_pairing :
    (∀ (u : JWTPayload) (b : CreateChangeBody) (auditOk : Bool) (db : DB)
        (pc : PendingChange) (db' : DB),
      submitHandler u b auditOk db = (HttpResult.ok pc, db') →
      ∃ e, db'.auditLogs = db.auditLogs ++ [e]
        ∧ e.userId = u.userId
        ∧ e.action = ActionType.create
        ∧ e.resourceType = some ("pending_change")
        ∧ e.resourceId = some pc.id
        ∧ e.details = AuditDetails.submitChange b.action b.resourceType)
    ∧ (∀ (u : JWTPayload) (id : Nat) (b : ReviewBody) (auditOk : Bool) (db : DB)
        (r : Option PendingChange) (db' : DB),
      reviewHandler u id b auditOk db = (HttpResult.ok r, db') →
      ∃ pc e, PendingChangeModel.getById id db = some pc
        ∧ db'.auditLogs = db.auditLogs ++ [e]
        ∧ e.userId = u.userId
        ∧ e.action = b.status.toAuditAction
        ∧ (b.status = Decision.approved → e.action = ActionType.approve)
        ∧ (b.status = Decision.rejected → e.action = ActionType.reject)
        ∧ e.resourceType = some ("pending_change")
        ∧ e.resourceId = some id
        ∧ e.details = AuditDetails.reviewChange pc.action pc.resourceType
            b.reviewNotes) := by
  constructor
  · intro u b auditOk db pc db' h
    obtain ⟨_, _, hpc, hdb'⟩ := submitHandler_ok_inv u b auditOk db pc db' h
    refine ⟨(AuditLogModel.create
        ⟨u.userId, ActionType.create, some ("pending_change"), some pc.id,
         AuditDetails.submitChange b.action b.resourceType, none, none⟩
        (PendingChangeModel.create
          ⟨u.userId, b.action.toActionType, b.resourceType, b.resourceId,
           b.changeData, b.previousData⟩ db).2).1,
      ?_, rfl, rfl, rfl, rfl, rfl⟩
    rw [hdb']
    rfl
  · intro u id b auditOk db r db' h
    obtain ⟨pc, hget, _, _, _, hdb'⟩ := reviewHandler_ok_inv u id b auditOk db r db' h
    refine ⟨pc, (AuditLogModel.create
        ⟨u.userId, b.status.toAuditAction, some ("pending_change"), some id,
         AuditDetails.reviewChange pc.action pc.resourceType b.reviewNotes,
         none, none⟩
        (PendingChangeModel.review id
          ⟨u.userId, b.status.toStatus, b.reviewNotes⟩ db).2).1,
      hget, ?_, rfl, rfl, ?_, ?_, rfl, rfl, rfl⟩
    · rw [hdb']
      rfl
    · intro hd
      rw [hd]
      rfl
    · intro hd
      rw [hd]
      rfl

/-- Witness for C5, submit part, at a concrete editor, body and store. -/
theorem audit_pairing_witness :
    ∃ e, dbAfterSubmit.auditLogs = dbEmpty.auditLogs ++ [e]
      ∧ e.userId = editorU.userId
      ∧ e.action = ActionType.create
      ∧ e.resourceType = some ("pending_change")
      ∧ e.resourceId = some submittedRow.id
      ∧ e.details = AuditDetails.submitChange sampleChangeBody.action
          sampleChangeBody.resourceType :=
  audit_pairing.1 editorU sampleChangeBody true dbEmpty submittedRow
    dbAfterSubmit (by rfl)

/-! Claim C6. -/

/-- The review-metadata invariant on a stored PendingChange: a pending
row has null review metadata, a terminal row has a reviewer and a
review timestamp. -/
def reviewMetaInvariant (c : PendingChange) : Prop :=
  (c.status = ChangeStatus.pending →
    c.reviewedBy = none ∧ c.reviewedAt = none ∧ c.reviewNotes = none)
  ∧ (c.status ≠ ChangeStatus.pending →
    c.reviewedBy ≠ none ∧ c.reviewedAt ≠ none)

/-- C6: a successful submit appends exactly one new PendingChange whose
status is pending and whose review metadata is entirely unset, and in
doing so preserves the review-metadata invariant across the store. -/
theorem submit_stores_pending_null_metadata (u : JWTPayload)
    (b : CreateChangeBody) (auditOk : Bool) (db : DB) (pc : PendingChange)
    (db' : DB) (h : submitHandler u b auditOk db = (HttpResult.ok pc, db')) :
    db'.pendingChanges = db.pendingChanges ++ [pc]
    ∧ pc.status = ChangeStatus.pending
    ∧ pc.reviewedBy = none ∧ pc.reviewedAt = none ∧ pc.reviewNotes = none
    ∧ ((∀ c ∈ db.pendingChanges, reviewMetaInvariant c) →
       ∀ c ∈ db'.pendingChanges, reviewMetaInvariant c) := by
  obtain ⟨_, _, hpc, hdb'⟩ := submitHandler_ok_inv u b auditOk db pc db' h
  subst hpc
  subst hdb'
  refine ⟨rfl, rfl, rfl, rfl, rfl, ?_⟩
  intro hall c hc
  have hc' : c ∈ db.pendingChanges ++ [(PendingChangeModel.create
      ⟨u.userId, b.action.toActionType, b.resourceType, b.resourceId,
       b.changeData, b.previousData⟩ db).1] := hc
  rcases List.mem_append.mp hc' with h1 | h2
  · exact hall c h1
  · have hc2 : c = (PendingChangeModel.create
        ⟨u.userId, b.action.toActionType, b.resourceType, b.resourceId,
         b.changeData, b.previousData⟩ db).1 := by
      simpa using h2
    subst hc2
    exact ⟨fun _ => ⟨rfl, rfl, rfl⟩, fun hne => absurd rfl hne⟩

/-- Witness for C6 at a concrete editor, body and store. -/
theorem submit_stores_pending_null_metadata_witness :
    dbAfterSubmit.pendingChanges = dbEmpty.pendingChanges ++ [submittedRow]
    ∧ submittedRow.status = ChangeStatus.pending
    ∧ submittedRow.reviewedBy = none ∧ submittedRow.reviewedAt = none
    ∧ submittedRow.reviewNotes = none
    ∧ ((∀ c ∈ dbEmpty.pendingChanges, reviewMetaInvariant c) →
       ∀ c ∈ dbAfterSubmit.pendingChanges, reviewMetaInvariant c) :=
  submit_stores_pending_null_metadata editorU sampleChangeBody true dbEmpty
    submittedRow dbAfterSubmit (by rfl)

/-! Claim C3, amended part. -/

/-- C3 as amended: an audit-recording failure is swallowed only inside
the auditLog middleware, whose response passes through unchanged with
the store untouched; in the submit and review handlers the awaited
audit insert is inside the try block, so its failure is answered with a
500 error even though the primary persistence step has already
committed: the submitted change is stored pending, the reviewed change
is stored with the review applied. -/
theorem audit_failure_behavior :
    (∀ (u : JWTPayload) (b : CreateChangeBody) (db : DB),
      u.role ≠ UserRole.admin →
      (submitHandler u b false db).1 = HttpResult.err 500 ("Internal server error")
      ∧ ∃ pc, ((submitHandler u b false db).2).pendingChanges
          = db.pendingChanges ++ [pc] ∧ pc.status = ChangeStatus.pending)
    ∧ (∀ (u : JWTPayload) (id : Nat) (b : ReviewBody) (db : DB) (pc : PendingChange),
      PendingChangeModel.getById id db = some pc →
      pc.status = ChangeStatus.pending →
      (reviewHandler u id b false db).1 = HttpResult.err 500 ("Internal server error")
      ∧ PendingChangeModel.getById id ((reviewHandler u id b false db).2)
          = some (applyReviewSet ⟨u.userId, b.status.toStatus, b.reviewNotes⟩
              db.now pc))
    ∧ (∀ (α : Type) (user : Option JWTPayload) (action : ActionType)
        (resourceType : Option String) (statusCode : Nat)
        (resourceId : Option Nat) (method pathStr : String)
        (ipAddress userAgent : Option String) (data : α) (db : DB),
      auditMiddlewareJson user action resourceType statusCode resourceId
        method pathStr ipAddress userAgent false data db = (data, db)) := by
  refine ⟨?_, ?_, ?_⟩
  · intro u b db hrole
    constructor
    · simp [submitHandler, hrole]
    · refine ⟨(PendingChangeModel.create
        ⟨u.userId, b.action.toActionType, b.resourceType, b.resourceId,
         b.changeData, b.previousData⟩ db).1, ?_, rfl⟩
      simp only [submitHandler]
      rw [if_neg hrole]
      rfl
  · intro u id b db pc hget hstat
    constructor
    · simp only [reviewHandler]
      rw [hget]
      simp [hstat]
    · have hbranch : (reviewHandler u id b false db).2
          = (PendingChangeModel.review id
              ⟨u.userId, b.status.toStatus, b.reviewNotes⟩ db).2 := by
        simp only [reviewHandler]
        rw [hget]
        simp [hstat]
      rw [hbranch]
      show (db.pendingChanges.map _).find? _ = _
      rw [find?_map_applyReviewSet]
      have hget2 : db.pendingChanges.find? (fun c => c.id == id) = some pc := hget
      rw [hget2]
      rfl
  · intro α user action resourceType statusCode resourceId method pathStr
      ipAddress userAgent data db
    cases user with
    | none => rfl
    | some uu =>
      simp only [auditMiddlewareJson]
      split
      · rfl
      · rfl

/-- Witness for C3 as amended, submit part, at a concrete input. -/
theorem audit_failure_behavior_witness :
    (submitHandler editorU sampleChangeBody false dbEmpty).1
        = HttpResult.err 500 ("Internal server error")
    ∧ ∃ pc, ((submitHandler editorU sampleChangeBody false dbEmpty).2).pendingChanges
        = dbEmpty.pendingChanges ++ [pc] ∧ pc.status = ChangeStatus.pending :=
  audit_failure_behavior.1 editorU sampleChangeBody dbEmpty (by decide)

/-! Claim C8. -/

/-- C8: when the target of a user-management call is an admin identity,
the role update, the active-status update and the deletion are all
rejected with an error response that leaves the store unchanged, and
this includes the case where the admin targets their own account. -/
theorem admin_identity_protected (u : JWTPayload) (id : Nat) (auditOk : Bool)
    (db : DB) (target : User)
    (hfind : UserModel.findById id db = some target)
    (hrole : target.role = UserRole.admin) :
    (∀ b : RawRoleBody, ∃ s m,
      updateRoleHandler u id b auditOk db = (HttpResult.err s m, db))
    ∧ (∀ active : Bool, toggleActiveHandler u id active auditOk db
        = (HttpResult.err 403 ("Cannot deactivate admin"), db))
    ∧ deleteUserHandler u id auditOk db
        = (HttpResult.err 403 ("Cannot delete admin"), db) := by
  refine ⟨?_, ?_, ?_⟩
  · intro b
    simp only [updateRoleHandler]
    cases hp : parseUpdateRole b with
    | none => exact ⟨400, ("Invalid input"), rfl⟩
    | some nr =>
      rw [hfind]
      refine ⟨403, ("Cannot change admin role"), ?_⟩
      simp [hrole]
  · intro active
    simp only [toggleActiveHandler]
    rw [hfind]
    simp [hrole]
  · simp only [deleteUserHandler]
    rw [hfind]
    simp [hrole]

/-- Witness for C8: a concrete admin attempting to delete their own
account is refused and the store is unchanged. -/
theorem admin_identity_protected_witness :
    deleteUserHandler adminU 10 true dbOneAdmin
      = (HttpResult.err 403 ("Cannot delete admin"), dbOneAdmin) :=
  (admin_identity_protected adminU 10 true dbOneAdmin adminRow rfl rfl).2.2

/-! Claim C9. -/

/-- Every admin row of the second store already existed, with the same
id and the admin role, in the first store. -/
def adminSubset (db db' : DB) : Prop :=
  ∀ u' ∈ db'.users, u'.role = UserRole.admin →
    ∃ w, w ∈ db.users ∧ w.id = u'.id ∧ w.role = UserRole.admin

/-- adminSubset is reflexive. -/
theorem adminSubset_refl (db : DB) : adminSubset db db :=
  fun u' h hr => ⟨u', h, rfl, hr⟩

/-- adminSubset composes along successive states. -/
theorem adminSubset_trans {db1 db2 db3 : DB} (h12 : adminSubset db1 db2)
    (h23 : adminSubset db2 db3) : adminSubset db1 db3 := by
  intro u' hm hr
  obtain ⟨w2, hw2, hid2, hr2⟩ := h23 u' hm hr
  obtain ⟨w1, hw1, hid1, hr1⟩ := h12 w2 hw2 hr2
  exact ⟨w1, hw1, hid1.trans hid2, hr1⟩

/-- A successful parse of the user-creation body always carries the
editor role, since the schema enumerates only that literal. -/
theorem parseCreateUser_role (b : RawCreateUserBody)
    (p : String × String × UserRole) (h : parseCreateUser b = some p) :
    p.2.2 = UserRole.editor := by
  simp only [parseCreateUser] at h
  split at h
  · injection h with h
    rw [← h]
  · exact absurd h (by simp)

/-- A successful parse of the role-update body is the editor role. -/
theorem parseUpdateRole_editor (b : RawRoleBody) (r : UserRole)
    (h : parseUpdateRole b = some r) : r = UserRole.editor := by
  simp only [parseUpdateRole] at h
  split at h
  · injection h with h
    exact h.symm
  · exact absurd h (by simp)

/-- No single user-management call introduces an admin row: every admin
in the resulting store stems from an admin with the same id already
present before the call. -/
theorem applyUserOp_adminSubset (op : UserOp) (db : DB) :
    adminSubset db (applyUserOp op db) := by
  cases op with
  | createUser actor body hash auditOk =>
    show adminSubset db (createUserHandler actor body hash auditOk db).2
    simp only [createUserHandler]
    cases hp : parseCreateUser body with
    | none => exact adminSubset_refl db
    | some parsed =>
      dsimp only
      have hrole := parseCreateUser_role body parsed hp
      cases hf : UserModel.findByEmail parsed.1 db with
      | some w => exact adminSubset_refl db
      | none =>
        dsimp only
        have hmem : ∀ u', u' ∈ db.users
            ++ [(UserModel.create parsed.1 (hash parsed.2.1) parsed.2.2 db).1] →
            u'.role = UserRole.admin →
            ∃ w, w ∈ db.users ∧ w.id = u'.id ∧ w.role = UserRole.admin := by
          intro u' hm hr
          rcases List.mem_append.mp hm with h1 | h2
          · exact ⟨u', h1, rfl, hr⟩
          · have h3 : u' = (UserModel.create parsed.1 (hash parsed.2.1)
                parsed.2.2 db).1 := by
              simpa using h2
            rw [h3] at hr
            rw [show (UserModel.create parsed.1 (hash parsed.2.1)
              parsed.2.2 db).1.role = parsed.2.2 from rfl, hrole] at hr
            exact absurd hr (by decide)
        cases auditOk with
        | false => exact fun u' hm hr => hmem u' hm hr
        | true => exact fun u' hm hr => hmem u' hm hr
  | updateRole actor id body auditOk =>
    show adminSubset db (updateRoleHandler actor id body auditOk db).2
    simp only [updateRoleHandler]
    cases hp : parseUpdateRole body with
    | none => exact adminSubset_refl db
    | some nr =>
      dsimp only
      have hnr := parseUpdateRole_editor body nr hp
      cases hf : UserModel.findById id db with
      | none => exact adminSubset_refl db
      | some target =>
        dsimp only
        by_cases ht : target.role = UserRole.admin
        · rw [if_pos ht]
          exact adminSubset_refl db
        · rw [if_neg ht]
          have hmem : ∀ u', u' ∈ db.users.map (fun w =>
              if w.id = id then { w with role := nr, updatedAt := db.now } else w) →
              u'.role = UserRole.admin →
              ∃ w, w ∈ db.users ∧ w.id = u'.id ∧ w.role = UserRole.admin := by
            intro u' hm hr
            rcases List.mem_map.mp hm with ⟨w, hw, heq⟩
            subst heq
            by_cases hid : w.id = id
            · rw [if_pos hid] at hr
              rw [show ({ w with role := nr, updatedAt := db.now } : User).role
                = nr from rfl, hnr] at hr
              exact absurd hr (by decide)
            · rw [if_neg hid] at hr ⊢
              exact ⟨w, hw, rfl, hr⟩
          cases auditOk with
          | false => exact fun u' hm hr => hmem u' hm hr
          | true => exact fun u' hm hr => hmem u' hm hr
  | toggleActive actor id isActive auditOk =>
    show adminSubset db (toggleActiveHandler actor id isActive auditOk db).2
    simp only [toggleActiveHandler]
    cases hf : UserModel.findById id db with
    | none => exact adminSubset_refl db
    | some target =>
      dsimp only
      by_cases ht : target.role = UserRole.admin
      · rw [if_pos ht]
        exact adminSubset_refl db
      · rw [if_neg ht]
        by_cases hself : id = actor.userId
        · rw [if_pos hself]
          exact adminSubset_refl db
        · rw [if_neg hself]
          have hmem : ∀ u', u' ∈ db.users.map (fun w =>
              if w.id = id then { w with isActive := isActive, updatedAt := db.now } else w) →
              u'.role = UserRole.admin →
              ∃ w, w ∈ db.users ∧ w.id = u'.id ∧ w.role = UserRole.admin := by
            intro u' hm hr
            rcases List.mem_map.mp hm with ⟨w, hw, heq⟩
            subst heq
            by_cases hid : w.id = id
            · rw [if_pos hid] at hr ⊢
              exact ⟨w, hw, rfl, hr⟩
            · rw [if_neg hid] at hr ⊢
              exact ⟨w, hw, rfl, hr⟩
          cases auditOk with
          | false => exact fun u' hm hr => hmem u' hm hr
          | true => exact fun u' hm hr => hmem u' hm hr
  | deleteUser actor id auditOk =>
    show adminSubset db (deleteUserHandler actor id auditOk db).2
    simp only [deleteUserHandler]
    cases hf : UserModel.findById id db with
    | none => exact adminSubset_refl db
    | some target =>
      dsimp only
      by_cases ht : target.role = UserRole.admin
      · rw [if_pos ht]
        exact adminSubset_refl db
      · rw [if_neg ht]
        by_cases hself : id = actor.userId
        · rw [if_pos hself]
          exact adminSubset_refl db
        · rw [if_neg hself]
          have hmem : ∀ u', u' ∈ db.users.filter (fun w => w.id != id) →
              u'.role = UserRole.admin →
              ∃ w, w ∈ db.users ∧ w.id = u'.id ∧ w.role = UserRole.admin := by
            intro u' hm hr
            exact ⟨u', List.mem_of_mem_filter hm, rfl, hr⟩
          cases auditOk with
          | false => exact fun u' hm hr => hmem u' hm hr
          | true => exact fun u' hm hr => hmem u' hm hr

/-- No sequence of user-management calls introduces an admin row. -/
theorem runUserOps_adminSubset (ops : List UserOp) (db : DB) :
    adminSubset db (runUserOps ops db) := by
  induction ops generalizing db with
  | nil => exact adminSubset_refl db
  | cons op rest ih =>
    exact adminSubset_trans (applyUserOp_adminSubset op db) (ih (applyUserOp op db))

/-- C9: the user-management API admits only the editor role: creating a
user with any other role, or updating a role to any other value, fails
validation with the store unchanged, and consequently no sequence of
user-management calls ever creates a new admin identity or promotes an
existing identity to admin. -/
theorem role_gate_only_editor :
    (∀ (u : JWTPayload) (b : RawCreateUserBody) (hash : String → String)
        (auditOk : Bool) (db : DB),
      b.role ≠ "editor" →
      createUserHandler u b hash auditOk db
        = (HttpResult.err 400 ("Invalid input"), db))
    ∧ (∀ (u : JWTPayload) (id : Nat) (b : RawRoleBody) (auditOk : Bool) (db : DB),
      b.role ≠ "editor" →
      updateRoleHandler u id b auditOk db
        = (HttpResult.err 400 ("Invalid input"), db))
    ∧ (∀ (ops : List UserOp) (db : DB) (u' : User),
      u' ∈ (runUserOps ops db).users → u'.role = UserRole.admin →
      ∃ w, w ∈ db.users ∧ w.id = u'.id ∧ w.role = UserRole.admin) := by
  refine ⟨?_, ?_, ?_⟩
  · intro u b hash auditOk db hb
    have hp : parseCreateUser b = none := by
      simp [parseCreateUser, hb]
    simp [createUserHandler, hp]
  · intro u id b auditOk db hb
    have hp : parseUpdateRole b = none := by
      simp [parseUpdateRole, hb]
    simp [updateRoleHandler, hp]
  · intro ops db u' hm hr
    exact runUserOps_adminSubset ops db u' hm hr

/-- Witness for C9: a concrete creation request asking for the admin
role is rejected by validation with the store unchanged. -/
theorem role_gate_only_editor_witness :
    createUserHandler adminU badRoleCreateBody (fun s => s) true dbOneAdmin
      = (HttpResult.err 400 ("Invalid input"), dbOneAdmin) :=
  role_gate_only_editor.1 adminU badRoleCreateBody (fun s => s) true dbOneAdmin
    (by decide)

end GoGreen
